import Mathlib

/-!
Verification of the trip-recommendation engine in
`src/client/src/lib/tripRecommendation.ts` (class `TripRecommendationEngine`).

The TypeScript code is shallowly embedded:
* JS numbers are modelled as rationals (`ℚ`); `Math.floor` results as `ℤ`.
* `Math.random()` is modelled as a stream of rationals consumed head-first
  (a `List ℚ`; an exhausted list yields 0, i.e. a stream with a zero tail).
* JS `Set` objects are modelled as lists observed only through membership.
* The instance map `this.poiRotationIndex` is an association list threaded
  through the calls that read or write it.
* Calendar dates are modelled as day numbers (`ℤ`): the source computes
  `new Date(departureDate); d.setDate(d.getDate() + day - 1)`, and `setDate`
  advances the calendar date by exactly that many days (with month/year
  rollover), i.e. day-number addition.
* `Array.prototype.sort` with a numeric-key comparator is a stable sort and
  is modelled by `List.insertionSort` (stable) on the corresponding relation.
-/

namespace TripRec

/-- JS truthy defaulting `x || d` for numeric `x`: `0` is falsy. -/
def jsOr (x d : ℚ) : ℚ := if x = 0 then d else x

/-- `String.prototype.toLowerCase()` (ASCII model, matching the catalog data). -/
def lowerStr (s : String) : String := ⟨s.data.map Char.toLower⟩

/-- Character-list prefix test (helper for the JS substring test). -/
def leadsWith : List Char → List Char → Bool
  | [], _ => true
  | _ :: _, [] => false
  | a :: as, b :: bs => a == b && leadsWith as bs

/-- Substring search over character lists. -/
def hasSub (needle : List Char) : List Char → Bool
  | [] => leadsWith needle []
  | c :: t => leadsWith needle (c :: t) || hasSub needle t

/-- JS `hay.includes(needle)` for strings: substring containment. -/
def strIncludes (hay needle : String) : Bool := hasSub needle.data hay.data

/-- `TransportOption` of `shared/schema.ts` (the optional departure/arrival
time strings are never read by the engine and are omitted). -/
structure TransportOption where
  mode : String
  durationHrs : ℚ
  cost : ℚ
deriving DecidableEq, Repr

/-- One entry `"From→To" : TransportOption[]` of the `TransportData` record;
the key is split on `'→'` into its two city names. -/
structure Route where
  fromCity : String
  toCity : String
  options : List TransportOption
deriving DecidableEq, Repr

/-- `TransportData`: `Object.entries` enumerates the routes in insertion
order, so the record is embedded as an ordered list of entries. -/
abbrev TransportData := List Route

/-- `Poi` of `shared/schema.ts` (`description` is never read and omitted;
`duration` is optional in the schema and read as `duration || 120`, so an
absent value behaves exactly like the falsy `0` and is modelled as `0`). -/
structure Poi where
  id : String
  name : String
  category : String
  popularityScore : ℚ
  duration : ℚ
deriving DecidableEq, Repr

/-- `PoiData`: per-city POI lists, keyed by lower-case city name. -/
abbrev PoiData := List (String × List Poi)

/-- `this.poisData[city] || []`. -/
def poisFor (poisData : PoiData) (city : String) : List Poi :=
  ((poisData.find? (fun e => e.1 == city)).map Prod.snd).getD []

/-- `this.poiRotationIndex`, an object used as a map from city to counter.
Reads use `poiRotationIndex[city]` after an `if (!poiRotationIndex[city])
poiRotationIndex[city] = 0;` guard, so an absent key reads as `0`. -/
abbrev RotMap := List (String × ℕ)

def rotGet (rot : RotMap) (city : String) : ℕ :=
  ((rot.find? (fun e => e.1 == city)).map Prod.snd).getD 0

def rotSet (rot : RotMap) (city : String) (v : ℕ) : RotMap :=
  match rot with
  | [] => [(city, v)]
  | e :: rest => if e.1 == city then (city, v) :: rest else e :: rotSet rest city v

/-- The `Math.random()` draw sequence of one run. -/
abbrev Rng := List ℚ

def nextRand : Rng → ℚ × Rng
  | [] => (0, [])
  | r :: rest => (r, rest)

/-- `TripRequest` of `shared/schema.ts`; `departureDate` is the parsed ISO
date as a day number. -/
structure TripRequest where
  origin : String
  durationDays : ℕ
  maxBudget : ℚ
  transportPreference : List String
  interests : List String
  departureDate : ℤ
deriving DecidableEq, Repr

/-- An activity entry of a `TripDay`. -/
structure ActivityEntry where
  id : String
  name : String
  category : String
  time : String
  duration : ℚ
deriving DecidableEq, Repr

/-- The `transport` sub-object of a `TripDay`. -/
structure TransportLeg where
  fromCity : String
  toCity : String
  option : TransportOption
deriving DecidableEq, Repr

/-- `TripDay` of `shared/schema.ts`; `date` is the rendered calendar date as
a day number. -/
structure TripDay where
  day : ℕ
  city : String
  date : ℤ
  transport : Option TransportLeg
  activities : List ActivityEntry
  dailyCost : ℚ
deriving DecidableEq, Repr

/-- `TripResponse` of `shared/schema.ts`. -/
structure TripResponse where
  tripDays : List TripDay
  totalCost : ℚ
  totalTravelTime : ℚ
  remainingBudget : ℚ
deriving DecidableEq, Repr

/-- `estimateActivityCost(category)` (lines 294-311): base table lookup with
the JS-truthy default `baseCosts[baseCategory] || 15` — both a missing key
(`undefined`) and a stored `0` are falsy — plus `Math.random() * 10 - 5`,
floored.  `r` is the `Math.random()` draw. -/
def estimateActivityCost (category : String) (r : ℚ) : ℤ :=
  let baseCosts : List (String × ℚ) :=
    [("museums", 15), ("art", 12), ("history", 10), ("architecture", 5),
     ("food", 25), ("shopping", 0), ("nature", 0), ("nightlife", 30),
     ("entertainment", 20)]
  let baseCategory := lowerStr category
  let looked := ((baseCosts.find? (fun e => e.1 == baseCategory)).map Prod.snd).getD 0
  let baseCost := jsOr looked 15
  ⌊baseCost + r * 10 - 5⌋

/-- One row of the `timeSlots` table in `generateTimeSlot`; the source field
`end` is a Lean keyword and is embedded as `finish`. -/
structure TimeSlot where
  start : ℕ
  finish : ℕ
  period : String
deriving DecidableEq, Repr

def timeSlots : List TimeSlot :=
  [⟨9, 12, "AM"⟩, ⟨1, 3, "PM"⟩, ⟨4, 6, "PM"⟩]

/-- `generateTimeSlot(index)` (lines 313-325): `timeSlots[index] ||
timeSlots[0]`, with AM/PM recomputed from `< 12` on the raw hour values. -/
def generateTimeSlot (index : ℕ) : String :=
  let slot := (timeSlots.get? index).getD ⟨9, 12, "AM"⟩
  let startPeriod := if slot.start < 12 then "AM" else "PM"
  let endPeriod := if slot.finish < 12 then "AM" else "PM"
  toString slot.start ++ ":00 " ++ startPeriod ++ " - " ++
    toString slot.finish ++ ":00 " ++ endPeriod

/-- The tie-break score `cost + durationHrs * 10` used to order a route's
valid options. -/
def optionScore (o : TransportOption) : ℚ := o.cost + o.durationHrs * 10

/-- The comparator `(a, b) => scoreA - scoreB`: ascending in `optionScore`. -/
def optLe (a b : TransportOption) : Prop := optionScore a ≤ optionScore b

instance : DecidableRel optLe := fun a b => inferInstanceAs (Decidable (_ ≤ _))

instance : IsTotal TransportOption optLe := ⟨fun a b => le_total _ _⟩

instance : IsTrans TransportOption optLe := ⟨fun _ _ _ => le_trans⟩

/-- The option filter inside `findCandidateCities`:
`transportPreference.includes(option.mode) && option.cost <= remainingBudget * 0.3`. -/
def validTransportOptions (transportPreference : List String) (remainingBudget : ℚ)
    (options : List TransportOption) : List TransportOption :=
  options.filter (fun o =>
    transportPreference.contains o.mode && decide (o.cost ≤ remainingBudget * (3/10)))

/-- A `{city, transport}` candidate produced by `findCandidateCities`. -/
structure Candidate where
  city : String
  transport : TransportOption
deriving DecidableEq, Repr

/-- `findCandidateCities` (lines 154-186): for each route entry in order,
if the origin matches the current city (case-insensitively) and the
destination is unvisited, filter the options and push the first element of
the stably sorted survivors (`validOptions.sort(...)[0]`). -/
def findCandidateCities (transportData : TransportData) (currentCity : String)
    (visitedCities : List String) (transportPreference : List String)
    (remainingBudget : ℚ) : List Candidate :=
  match transportData with
  | [] => []
  | r :: rest =>
    let tail := findCandidateCities rest currentCity visitedCities transportPreference
      remainingBudget
    if lowerStr r.fromCity == currentCity && !(visitedCities.contains (lowerStr r.toCity)) then
      match List.insertionSort optLe
          (validTransportOptions transportPreference remainingBudget r.options) with
      | [] => tail
      | bestOption :: _ => ⟨lowerStr r.toCity, bestOption⟩ :: tail
    else tail

/-- The per-candidate score computed by `scoreCities` (lines 192-202): sum of
`poi.popularityScore || 1` over the city's POIs whose lower-cased category is
an element of `interests` (`interests.includes(...)`, exact equality), plus
the fixed exploration bonus 50. -/
def cityScore (poisData : PoiData) (interests : List String) (c : Candidate) : ℚ :=
  ((poisFor poisData c.city).foldl (fun s poi =>
    if interests.contains (lowerStr poi.category) then s + jsOr poi.popularityScore 1 else s)
    0) + 50

/-- `scoreCities` (lines 188-210): running best with `bestScore` starting at
`-Infinity` (modelled by the `none` accumulator: the first candidate's finite
score always beats it) and a strict `score > bestScore` replacement test. -/
def scoreCities (poisData : PoiData) (candidateCities : List Candidate)
    (interests : List String) : Option Candidate :=
  (candidateCities.foldl (fun (acc : Option (ℚ × Candidate)) c =>
    let score := cityScore poisData interests c
    match acc with
    | none => some (score, c)
    | some best => if best.1 < score then some (score, c) else acc) none).map Prod.snd

/-- Descending popularity order used by the `.sort((a, b) =>
(b.popularityScore || 0) - (a.popularityScore || 0))` calls. -/
def popDesc (a b : Poi) : Prop := jsOr b.popularityScore 0 ≤ jsOr a.popularityScore 0

instance : DecidableRel popDesc := fun a b => inferInstanceAs (Decidable (_ ≤ _))

instance : IsTotal Poi popDesc := ⟨fun a b => le_total _ _⟩

instance : IsTrans Poi popDesc := ⟨fun _ _ _ h h' => le_trans h' h⟩

/-- `numActivitiesDesired` (line 224). -/
def numActivitiesDesired : ℕ := 3

/-- Phase 1 pool of `selectActivitiesForCity` (lines 228-230): POIs whose
category contains some interest as a substring (both lower-cased) and which
are not in `visitedPois`, stably sorted by popularity descending. -/
def interestPois (cityPois : List Poi) (interests : List String)
    (visitedPois : List String) : List Poi :=
  List.insertionSort popDesc (cityPois.filter (fun poi =>
    interests.any (fun interest => strIncludes (lowerStr poi.category) (lowerStr interest))
      && !(visitedPois.contains poi.id)))

/-- Phase 2 pool (lines 243-245): unvisited POIs not already picked
(`!selectedActivities.some(sel => sel.id === poi.id)`). -/
def phase2Pool (cityPois : List Poi) (visitedPois : List String)
    (selectedActivities : List Poi) : List Poi :=
  cityPois.filter (fun poi =>
    !(visitedPois.contains poi.id)
      && !(selectedActivities.any (fun sel => sel.id == poi.id)))

/-- Swap of two positions of a list; out-of-range indices leave the list
unchanged (the Fisher-Yates indices below are always in range for
`Math.random()` draws in `[0, 1)`). -/
def listSwap {α : Type} (l : List α) (i j : ℕ) : List α :=
  match l.get? i, l.get? j with
  | some a, some b => (l.set i b).set j a
  | _, _ => l

/-- The Fisher-Yates loop `for (let i = n-1; i > 0; i--) { const j =
Math.floor(Math.random() * (i + 1)); swap(i, j) }`; the argument is the
current loop index `i`. -/
def fyLoop {α : Type} : List α → Rng → ℕ → List α × Rng
  | l, rng, 0 => (l, rng)
  | l, rng, i + 1 =>
    let d := nextRand rng
    let j := (⌊d.1 * ((i : ℚ) + 2)⌋).toNat
    fyLoop (listSwap l (i + 1) j) d.2 i

/-- In-place shuffle of a whole array (lines 248-251 and 283-286). -/
def fyShuffle {α : Type} (l : List α) (rng : Rng) : List α × Rng :=
  fyLoop l rng (l.length - 1)

/-- Phase 2 of `selectActivitiesForCity` (lines 240-261): if fewer than 3
POIs were selected, sort the phase-2 pool by popularity descending, shuffle
it, and append as many of its elements as still fit. -/
def phase2Fill (cityPois : List Poi) (visitedPois : List String)
    (selectedActivities : List Poi) (rng : Rng) : List Poi × Rng :=
  if selectedActivities.length < numActivitiesDesired then
    let generalPopularPois :=
      List.insertionSort popDesc (phase2Pool cityPois visitedPois selectedActivities)
    let shuffled := fyShuffle generalPopularPois rng
    (selectedActivities ++ shuffled.1.take (numActivitiesDesired - selectedActivities.length),
      shuffled.2)
  else (selectedActivities, rng)

/-- A default POI for the (never taken) out-of-range branch of `getD` in the
rotation window. -/
def defPoi : Poi := ⟨"", "", "", 0, 0⟩

/-- Phase 3 of `selectActivitiesForCity` (lines 263-280): if still short,
rotate through all the city's POIs not picked in this call, starting at the
per-city rotation cursor; the loop
`for (i = 0; i < remaining.length && selected.length < 3; i++)` pushes
`remaining[(start + i) % remaining.length]`, i.e. the window of length
`min (3 - selected.length) remaining.length`; the cursor is then advanced by
`numActivitiesDesired` modulo the pool length. -/
def phase3Fill (cityPois : List Poi) (city : String)
    (selectedActivities : List Poi) (rot : RotMap) : List Poi × RotMap :=
  if selectedActivities.length < numActivitiesDesired then
    let remaining := cityPois.filter (fun poi =>
      !(selectedActivities.any (fun sel => sel.id == poi.id)))
    if 0 < remaining.length then
      let start := rotGet rot city % remaining.length
      let picked := (List.range
          (min (numActivitiesDesired - selectedActivities.length) remaining.length)).map
        (fun i => remaining.getD ((start + i) % remaining.length) defPoi)
      (selectedActivities ++ picked,
        rotSet rot city ((rotGet rot city + numActivitiesDesired) % remaining.length))
    else (selectedActivities, rot)
  else (selectedActivities, rot)

/-- A POI decorated with its estimated cost (`{...poi, cost: ...}`). -/
structure CostedPoi where
  poi : Poi
  cost : ℤ
deriving DecidableEq, Repr

/-- The final `.map(poi => ({...poi, cost: this.estimateActivityCost(
poi.category)}))`, drawing one random per activity in list order. -/
def decorateCosts (l : List Poi) (rng : Rng) : List CostedPoi × Rng :=
  match l with
  | [] => ([], rng)
  | p :: rest =>
    let d := nextRand rng
    let tail := decorateCosts rest d.2
    (⟨p, estimateActivityCost p.category d.1⟩ :: tail.1, tail.2)

/-- `selectActivitiesForCity` (lines 216-292).  The `budget` and
`currentDay` parameters are accepted and ignored, as in the source.  Returns
the selected activities together with the updated rotation map and the rest
of the random stream. -/
def selectActivitiesForCity (poisData : PoiData) (city : String)
    (interests : List String) (budget : ℚ) (visitedPois : List String)
    (currentDay : ℕ) (rot : RotMap) (rng : Rng) :
    List CostedPoi × RotMap × Rng :=
  let cityPois := poisFor poisData city
  let sel1 := (interestPois cityPois interests visitedPois).take numActivitiesDesired
  let step2 := phase2Fill cityPois visitedPois sel1 rng
  let step3 := phase3Fill cityPois city step2.1 rot
  let shuffled := fyShuffle step3.1 step2.2
  let acts := decorateCosts (shuffled.1.take numActivitiesDesired) shuffled.2
  (acts.1, step3.2, acts.2)

/-- `MIN_DAYS_FOR_FLEXIBILITY` (line 51). -/
def MIN_DAYS_FOR_FLEXIBILITY : ℕ := 4

/-- `STICKY_CITY_THRESHOLD` (line 52). -/
def STICKY_CITY_THRESHOLD : ℕ := 2

/-- The mutable run-state of one `generateRecommendation` call. -/
structure DayState where
  currentCity : String
  remainingBudget : ℚ
  totalTravelTime : ℚ
  tripDays : List TripDay
  visitedCities : List String
  visitedPois : List String
  consecutiveDaysInSameCity : ℕ
  flexibleTransportActivated : Bool
  rot : RotMap
  rng : Rng
deriving Repr

/-- Lines 64-88 of the loop body: `let nextCity = currentCity` followed by
the flexible-transport block.  Returns the transport-mode filter for the
day, the updated one-shot flag, and the (possibly reset) stuck counter.

Note on lines 85-88: the `else if (flexibleTransportActivated && nextCity
!== currentCity)` branch is embedded exactly as written; `nextCity` was
assigned `currentCity` at line 64 and has not been changed when the test
runs, so the branch condition compares a value with itself. -/
def dayFlex (req : TripRequest) (st : DayState) : List String × Bool × ℕ :=
  let nextCity0 := st.currentCity
  if MIN_DAYS_FOR_FLEXIBILITY ≤ req.durationDays ∧
      STICKY_CITY_THRESHOLD ≤ st.consecutiveDaysInSameCity ∧
      st.flexibleTransportActivated = false then
    (["flight", "train", "bus", "car"], true, st.consecutiveDaysInSameCity)
  else if st.flexibleTransportActivated = true ∧ nextCity0 ≠ st.currentCity then
    (req.transportPreference, false, 0)
  else
    (req.transportPreference, st.flexibleTransportActivated, st.consecutiveDaysInSameCity)

/-- Lines 90-109: for days after the first, the candidate search and city
scoring; `some best` exactly when a relocation happens today. -/
def dayReloc (transportData : TransportData) (poisData : PoiData)
    (req : TripRequest) (day : ℕ) (st : DayState) : Option Candidate :=
  if 1 < day then
    let candidateCities := findCandidateCities transportData st.currentCity
      st.visitedCities (dayFlex req st).1 st.remainingBudget
    if 0 < candidateCities.length then scoreCities poisData candidateCities req.interests
    else none
  else none

/-- One iteration of the `for (let day = 1; day <= durationDays; day++)`
loop of `generateRecommendation` (lines 60-144). -/
def dayStep (transportData : TransportData) (poisData : PoiData)
    (req : TripRequest) (day : ℕ) (st : DayState) : DayState :=
  let currentDate : ℤ := req.departureDate + ((day - 1 : ℕ) : ℤ)
  let nextCity0 := st.currentCity
  let flexTriple := dayFlex req st
  let reloc := dayReloc transportData poisData req day st
  let nextCity := match reloc with
    | some best => best.city
    | none => nextCity0
  let transport : Option TransportOption := match reloc with
    | some best => some best.transport
    | none => none
  let dailyTransportCost : ℚ := match reloc with
    | some best => best.transport.cost
    | none => 0
  let budget1 := st.remainingBudget - dailyTransportCost
  let travel1 := st.totalTravelTime + (match reloc with
    | some best => best.transport.durationHrs
    | none => 0)
  let visited1 := match reloc with
    | some best => st.visitedCities ++ [best.city]
    | none => st.visitedCities
  let consec2 := if nextCity = st.currentCity then flexTriple.2.2 + 1 else 0
  let sel := selectActivitiesForCity poisData nextCity req.interests budget1
    st.visitedPois day st.rot st.rng
  let acts := sel.1
  let visitedPois2 := st.visitedPois ++ acts.map (fun a => a.poi.id)
  -- `(activity.cost || 0)`: the identity on numbers, since `0 || 0` is `0`
  let dailyActivityCost : ℚ := acts.foldl (fun s a => s + (a.cost : ℚ)) 0
  let dailyTotalCost := dailyActivityCost + dailyTransportCost
  let budget2 := budget1 - dailyActivityCost
  { currentCity := nextCity
    remainingBudget := budget2
    totalTravelTime := travel1
    tripDays := st.tripDays ++ [{
      day := day
      city := nextCity
      date := currentDate
      transport := transport.map (fun o =>
        { fromCity := st.currentCity, toCity := nextCity, option := o })
      -- `activities.indexOf(activity)` is the positional index: each spread
      -- `{...poi}` creates a fresh object, so reference equality finds the
      -- element's own position; embedded with `enum`
      activities := acts.enum.map (fun e =>
        { id := e.2.poi.id, name := e.2.poi.name, category := e.2.poi.category,
          time := generateTimeSlot e.1, duration := jsOr e.2.poi.duration 120 })
      dailyCost := dailyTotalCost }]
    visitedCities := visited1
    visitedPois := visitedPois2
    consecutiveDaysInSameCity := consec2
    flexibleTransportActivated := flexTriple.2.1
    rot := sel.2.1
    rng := sel.2.2 }

/-- The state at the top of the loop (lines 44-58).  `rot0` is the value the
instance field `this.poiRotationIndex` holds when the call starts; line 58
(`this.poiRotationIndex = {}`) discards it before the loop. -/
def initState (req : TripRequest) (rng : Rng) (rot0 : RotMap) : DayState :=
  { currentCity := lowerStr req.origin
    remainingBudget := req.maxBudget
    totalTravelTime := 0
    tripDays := []
    visitedCities := [lowerStr req.origin]
    visitedPois := []
    consecutiveDaysInSameCity := 0
    flexibleTransportActivated := false
    rot := []
    rng := rng }

/-- `generateRecommendation(request)` (lines 41-152).  `rot0` is the
residual `this.poiRotationIndex` left by earlier calls on the same engine
instance; `rng` is the sequence of `Math.random()` draws of this call. -/
def generateRecommendation (transportData : TransportData) (poisData : PoiData)
    (rot0 : RotMap) (req : TripRequest) (rng : Rng) : TripResponse :=
  let finalState := (List.range req.durationDays).foldl
    (fun st i => dayStep transportData poisData req (i + 1) st) (initState req rng rot0)
  { tripDays := finalState.tripDays
    totalCost := req.maxBudget - finalState.remainingBudget
    totalTravelTime := finalState.totalTravelTime
    remainingBudget := finalState.remainingBudget }

/-! ### Helper lemmas -/

theorem cons_set_perm {α : Type} :
    ∀ {t : List α} {m : ℕ} {b : α}, t.get? m = some b →
      ∀ a, List.Perm (a :: t) (b :: t.set m a)
  | [], m, b, h, a => by simp at h
  | c :: t, 0, b, h, a => by
    simp only [List.get?] at h
    cases h
    simpa [List.set] using List.Perm.swap c a t
  | c :: t, m + 1, b, h, a => by
    simp only [List.get?] at h
    have h1 : List.Perm (a :: c :: t) (c :: a :: t) := List.Perm.swap c a t
    have h2 : List.Perm (c :: a :: t) (c :: b :: t.set m a) := (cons_set_perm h a).cons c
    have h3 : List.Perm (c :: b :: t.set m a) (b :: c :: t.set m a) := List.Perm.swap b c _
    simpa [List.set] using (h1.trans h2).trans h3

theorem set_set_perm {α : Type} :
    ∀ {l : List α} {i j : ℕ} {a b : α}, l.get? i = some a → l.get? j = some b →
      List.Perm ((l.set i b).set j a) l
  | [], i, j, a, b, h1, _ => by simp at h1
  | c :: t, 0, 0, a, b, h1, h2 => by
    simp only [List.get?] at h1 h2
    cases h1; cases h2
    simp only [List.set]
    exact List.Perm.refl _
  | c :: t, 0, m + 1, a, b, h1, h2 => by
    simp only [List.get?] at h1 h2
    cases h1
    simpa [List.set] using (cons_set_perm h2 c).symm
  | c :: t, n + 1, 0, a, b, h1, h2 => by
    simp only [List.get?] at h1 h2
    cases h2
    simpa [List.set] using (cons_set_perm h1 c).symm
  | c :: t, n + 1, m + 1, a, b, h1, h2 => by
    simp only [List.get?] at h1 h2
    simpa [List.set] using (set_set_perm h1 h2).cons c

theorem listSwap_perm {α : Type} (l : List α) (i j : ℕ) :
    List.Perm (listSwap l i j) l := by
  unfold listSwap
  cases h1 : l.get? i with
  | none => cases l.get? j <;> exact List.Perm.refl l
  | some a =>
    cases h2 : l.get? j with
    | none => exact List.Perm.refl l
    | some b => exact set_set_perm h1 h2

theorem fyLoop_perm {α : Type} :
    ∀ (i : ℕ) (l : List α) (rng : Rng), List.Perm (fyLoop l rng i).1 l
  | 0, l, rng => List.Perm.refl l
  | i + 1, l, rng => by
    rw [fyLoop]
    exact (fyLoop_perm i _ _).trans (listSwap_perm l (i + 1) _)

theorem fyShuffle_perm {α : Type} (l : List α) (rng : Rng) :
    List.Perm (fyShuffle l rng).1 l :=
  fyLoop_perm _ l rng

theorem decorateCosts_map_poi (l : List Poi) (rng : Rng) :
    ((decorateCosts l rng).1).map (fun a => a.poi) = l := by
  induction l generalizing rng with
  | nil => rfl
  | cons p rest ih => simp [decorateCosts, ih]

theorem decorateCosts_length (l : List Poi) (rng : Rng) :
    ((decorateCosts l rng).1).length = l.length := by
  induction l generalizing rng with
  | nil => rfl
  | cons p rest ih => simp [decorateCosts, ih]

/-- Whether a route qualifies for a candidate entry: matching origin,
unvisited destination, and at least one option surviving the mode/budget
filter. -/
def routeQualifies (currentCity : String) (visitedCities transportPreference : List String)
    (remainingBudget : ℚ) (r : Route) : Bool :=
  lowerStr r.fromCity == currentCity && !(visitedCities.contains (lowerStr r.toCity))
    && r.options.any (fun o =>
      transportPreference.contains o.mode && decide (o.cost ≤ remainingBudget * (3/10)))

theorem validTransportOptions_any {pref : List String} {B : ℚ} {options : List TransportOption} :
    validTransportOptions pref B options = [] ↔
      options.any (fun o => pref.contains o.mode && decide (o.cost ≤ B * (3/10))) = false := by
  rw [validTransportOptions, List.filter_eq_nil_iff]
  simp [List.any_eq_true]

theorem mem_findCandidateCities {t : TransportData} {cc : String} {vis pref : List String}
    {B : ℚ} {c : Candidate} (hc : c ∈ findCandidateCities t cc vis pref B) :
    ∃ r ∈ t, lowerStr r.fromCity = cc ∧ vis.contains (lowerStr r.toCity) = false ∧
      c.city = lowerStr r.toCity ∧
      c.transport ∈ validTransportOptions pref B r.options ∧
      ∀ o ∈ validTransportOptions pref B r.options, optionScore c.transport ≤ optionScore o := by
  induction t with
  | nil => simp [findCandidateCities] at hc
  | cons r rest ih =>
    rw [findCandidateCities] at hc
    by_cases hcond : (lowerStr r.fromCity == cc
        && !(vis.contains (lowerStr r.toCity))) = true
    · rw [if_pos hcond] at hc
      have hcond' := hcond
      simp only [Bool.and_eq_true] at hcond'
      obtain ⟨hfrom, hto⟩ := hcond'
      cases hsort : List.insertionSort optLe (validTransportOptions pref B r.options) with
      | nil =>
        rw [hsort] at hc
        obtain ⟨r', hr', hrest⟩ := ih hc
        exact ⟨r', List.mem_cons_of_mem r hr', hrest⟩
      | cons best others =>
        rw [hsort] at hc
        rcases List.mem_cons.mp hc with hceq | hctail
        · subst hceq
          refine ⟨r, List.mem_cons_self r rest, eq_of_beq hfrom, by simpa using hto, rfl, ?_, ?_⟩
          · have : best ∈ List.insertionSort optLe (validTransportOptions pref B r.options) := by
              rw [hsort]; exact List.mem_cons_self best others
            exact (List.mem_insertionSort optLe).mp this
          · intro o ho
            have ho' : o ∈ List.insertionSort optLe (validTransportOptions pref B r.options) :=
              (List.mem_insertionSort optLe).mpr ho
            rw [hsort] at ho'
            rcases List.mem_cons.mp ho' with rfl | ho''
            · exact le_refl _
            · have hsorted := List.sorted_insertionSort optLe
                (validTransportOptions pref B r.options)
              rw [hsort] at hsorted
              exact List.rel_of_sorted_cons hsorted o ho''
        · obtain ⟨r', hr', hrest⟩ := ih hctail
          exact ⟨r', List.mem_cons_of_mem r hr', hrest⟩
    · rw [if_neg hcond] at hc
      obtain ⟨r', hr', hrest⟩ := ih hc
      exact ⟨r', List.mem_cons_of_mem r hr', hrest⟩

theorem findCandidateCities_length (t : TransportData) (cc : String)
    (vis pref : List String) (B : ℚ) :
    (findCandidateCities t cc vis pref B).length =
      (t.filter (routeQualifies cc vis pref B)).length := by
  induction t with
  | nil => rfl
  | cons r rest ih =>
    rw [findCandidateCities]
    by_cases hcond : (lowerStr r.fromCity == cc
        && !(vis.contains (lowerStr r.toCity))) = true
    · rw [if_pos hcond]
      cases hsort : List.insertionSort optLe (validTransportOptions pref B r.options) with
      | nil =>
        have hempty : validTransportOptions pref B r.options = [] := by
          have hlen := List.length_insertionSort optLe (validTransportOptions pref B r.options)
          rw [hsort] at hlen
          exact List.length_eq_zero.mp hlen.symm
        have hq : routeQualifies cc vis pref B r = false := by
          rw [routeQualifies, hcond, validTransportOptions_any.mp hempty]
          rfl
        rw [List.filter_cons, hq]
        simpa using ih
      | cons best others =>
        have hne : validTransportOptions pref B r.options ≠ [] := by
          intro hemp
          rw [hemp] at hsort
          simp [List.insertionSort] at hsort
        have hany : (r.options.any (fun o =>
            pref.contains o.mode && decide (o.cost ≤ B * (3/10)))) = true := by
          cases hval : r.options.any (fun o =>
            pref.contains o.mode && decide (o.cost ≤ B * (3/10))) with
          | true => rfl
          | false => exact absurd (validTransportOptions_any.mpr hval) hne
        have hq : routeQualifies cc vis pref B r = true := by
          rw [routeQualifies, hcond, hany]
          rfl
        rw [List.filter_cons, hq]
        simpa using ih
    · have hq : routeQualifies cc vis pref B r = false := by
        rw [routeQualifies]
        cases hb : (lowerStr r.fromCity == cc && !vis.contains (lowerStr r.toCity)) with
        | true => exact absurd hb hcond
        | false => rfl
      rw [if_neg hcond, List.filter_cons, hq]
      simpa using ih

/-- The fold step inside `scoreCities`. -/
def scoreStep (poisData : PoiData) (interests : List String)
    (acc : Option (ℚ × Candidate)) (c : Candidate) : Option (ℚ × Candidate) :=
  let score := cityScore poisData interests c
  match acc with
  | none => some (score, c)
  | some best => if best.1 < score then some (score, c) else acc

theorem scoreCities_eq_fold (poisData : PoiData) (cands : List Candidate)
    (interests : List String) :
    scoreCities poisData cands interests =
      (cands.foldl (scoreStep poisData interests) none).map Prod.snd := rfl

theorem scoreFold_spec (poisData : PoiData) (interests : List String) :
    ∀ (rest : List Candidate) (b : Candidate),
      ∃ c', rest.foldl (scoreStep poisData interests)
          (some (cityScore poisData interests b, b)) =
          some (cityScore poisData interests c', c') ∧
        ((c' = b ∧ ∀ d ∈ rest, cityScore poisData interests d ≤ cityScore poisData interests b)
          ∨ ∃ l₁ l₂, rest = l₁ ++ c' :: l₂ ∧
              cityScore poisData interests b < cityScore poisData interests c' ∧
              (∀ d ∈ l₁, cityScore poisData interests d < cityScore poisData interests c') ∧
              (∀ d ∈ rest, cityScore poisData interests d ≤ cityScore poisData interests c'))
  | [], b => ⟨b, rfl, Or.inl ⟨rfl, by simp⟩⟩
  | x :: xs, b => by
    rw [List.foldl_cons]
    by_cases hlt : cityScore poisData interests b < cityScore poisData interests x
    · have hstep : scoreStep poisData interests
          (some (cityScore poisData interests b, b)) x =
          some (cityScore poisData interests x, x) := by
        rw [scoreStep]
        simp [hlt]
      rw [hstep]
      obtain ⟨c', hfold, hdisj⟩ := scoreFold_spec poisData interests xs x
      refine ⟨c', hfold, Or.inr ?_⟩
      rcases hdisj with ⟨rfl, hle⟩ | ⟨l₁, l₂, hsplit, hxc, hl₁, hle⟩
      · exact ⟨[], xs, rfl, hlt, by simp, by
          intro d hd
          rcases List.mem_cons.mp hd with rfl | hd'
          · exact le_refl _
          · exact hle d hd'⟩
      · refine ⟨x :: l₁, l₂, by rw [hsplit, List.cons_append], lt_trans hlt hxc, ?_, ?_⟩
        · intro d hd
          rcases List.mem_cons.mp hd with rfl | hd'
          · exact hxc
          · exact hl₁ d hd'
        · intro d hd
          rcases List.mem_cons.mp hd with rfl | hd'
          · exact le_of_lt hxc
          · exact hle d hd'
    · have hstep : scoreStep poisData interests
          (some (cityScore poisData interests b, b)) x =
          some (cityScore poisData interests b, b) := by
        rw [scoreStep]
        simp [hlt]
      rw [hstep]
      obtain ⟨c', hfold, hdisj⟩ := scoreFold_spec poisData interests xs b
      refine ⟨c', hfold, ?_⟩
      rcases hdisj with ⟨rfl, hle⟩ | ⟨l₁, l₂, hsplit, hbc, hl₁, hle⟩
      · refine Or.inl ⟨rfl, ?_⟩
        intro d hd
        rcases List.mem_cons.mp hd with rfl | hd'
        · exact le_of_not_lt hlt
        · exact hle d hd'
      · refine Or.inr ⟨x :: l₁, l₂, by rw [hsplit, List.cons_append], hbc, ?_, ?_⟩
        · intro d hd
          rcases List.mem_cons.mp hd with rfl | hd'
          · exact lt_of_le_of_lt (le_of_not_lt hlt) hbc
          · exact hl₁ d hd'
        · intro d hd
          rcases List.mem_cons.mp hd with rfl | hd'
          · exact le_trans (le_of_not_lt hlt) (le_of_lt hbc)
          · exact hle d hd'

theorem scoreCities_mem {poisData : PoiData} {cands : List Candidate}
    {interests : List String} {c : Candidate}
    (h : scoreCities poisData cands interests = some c) : c ∈ cands := by
  cases cands with
  | nil => exact Option.noConfusion h
  | cons x xs =>
    rw [scoreCities_eq_fold, List.foldl_cons] at h
    have hfirst : scoreStep poisData interests none x =
        some (cityScore poisData interests x, x) := rfl
    rw [hfirst] at h
    obtain ⟨c', hfold, hdisj⟩ := scoreFold_spec poisData interests xs x
    rw [hfold] at h
    have hc : c' = c := by simpa using h
    subst hc
    rcases hdisj with ⟨rfl, _⟩ | ⟨l₁, l₂, hsplit, _, _, _⟩
    · exact List.mem_cons_self _ _
    · exact List.mem_cons_of_mem x (hsplit ▸ List.mem_append_right l₁ (List.mem_cons_self _ _))

theorem nodup_ids_filter {l : List Poi} (h : (l.map Poi.id).Nodup) (q : Poi → Bool) :
    (((l.filter q)).map Poi.id).Nodup :=
  h.sublist (List.Sublist.map Poi.id (List.filter_sublist l))

theorem nodup_ids_of_perm {l l' : List Poi} (hp : List.Perm l' l)
    (h : (l.map Poi.id).Nodup) : (l'.map Poi.id).Nodup :=
  ((hp.map Poi.id).nodup_iff).mpr h

theorem nodup_ids_take {l : List Poi} (n : ℕ) (h : (l.map Poi.id).Nodup) :
    (((l.take n)).map Poi.id).Nodup :=
  h.sublist (List.Sublist.map Poi.id (List.take_sublist n l))

theorem id_not_mem_of_any_false {sel : List Poi} {p : Poi}
    (h : (sel.any (fun s => s.id == p.id)) = false) : p.id ∉ sel.map Poi.id := by
  intro hmem
  obtain ⟨s, hs, hsid⟩ := List.mem_map.mp hmem
  have htrue : sel.any (fun s => s.id == p.id) = true :=
    List.any_eq_true.mpr ⟨s, hs, by simp [hsid]⟩
  rw [h] at htrue
  exact Bool.noConfusion htrue

theorem mem_phase2Pool {cityPois : List Poi} {visited : List String} {sel : List Poi}
    {p : Poi} (h : p ∈ phase2Pool cityPois visited sel) :
    p ∈ cityPois ∧ (sel.any (fun s => s.id == p.id)) = false := by
  obtain ⟨hmem, hcond⟩ := List.mem_filter.mp h
  refine ⟨hmem, ?_⟩
  have := (Bool.and_eq_true _ _ ▸ hcond).2
  cases hany : sel.any (fun s => s.id == p.id) with
  | false => rfl
  | true => rw [hany] at this; exact Bool.noConfusion this

theorem phase2Fill_nodup {cityPois : List Poi} {visited : List String}
    {sel : List Poi} {rng : Rng} (hcp : (cityPois.map Poi.id).Nodup)
    (hsel : (sel.map Poi.id).Nodup) :
    (((phase2Fill cityPois visited sel rng).1).map Poi.id).Nodup := by
  rw [phase2Fill]
  split
  · set pool := phase2Pool cityPois visited sel with hpool
    have hpoolids : (pool.map Poi.id).Nodup := nodup_ids_filter hcp _
    have hperm : List.Perm (fyShuffle (List.insertionSort popDesc pool) rng).1 pool :=
      (fyShuffle_perm _ _).trans (List.perm_insertionSort popDesc pool)
    have hshufids := nodup_ids_of_perm hperm hpoolids
    have htakeids := nodup_ids_take (numActivitiesDesired - sel.length) hshufids
    rw [List.map_append]
    refine hsel.append htakeids ?_
    intro a ha hataken
    obtain ⟨p, hp, hpid⟩ := List.mem_map.mp hataken
    have hpool' : p ∈ pool := hperm.mem_iff.mp (List.mem_of_mem_take hp)
    have := id_not_mem_of_any_false (mem_phase2Pool hpool').2
    rw [hpid] at this
    exact this ha
  · exact hsel

theorem mod_window_inj {len k start : ℕ} (hk : k ≤ len) {i j : ℕ} (hi : i < k) (hj : j < k)
    (h : (start + i) % len = (start + j) % len) : i = j := by
  have hij : i ≡ j [MOD len] := Nat.ModEq.add_left_cancel' start h
  have h1 : i % len = i := Nat.mod_eq_of_lt (lt_of_lt_of_le hi hk)
  have h2 : j % len = j := Nat.mod_eq_of_lt (lt_of_lt_of_le hj hk)
  calc i = i % len := h1.symm
    _ = j % len := hij
    _ = j := h2

theorem nodup_ids_getD_inj {l : List Poi} (h : (l.map Poi.id).Nodup)
    {i j : ℕ} (hi : i < l.length) (hj : j < l.length)
    (hid : (l.getD i defPoi).id = (l.getD j defPoi).id) : i = j := by
  rw [List.getD_eq_getElem l defPoi hi, List.getD_eq_getElem l defPoi hj] at hid
  have hmi : i < (l.map Poi.id).length := by simpa using hi
  have hmj : j < (l.map Poi.id).length := by simpa using hj
  have h1 : (l.map Poi.id).get ⟨i, hmi⟩ = (l.map Poi.id).get ⟨j, hmj⟩ := by
    simpa using hid
  have h2 := (h.get_inj_iff).mp h1
  simpa using h2

theorem phase3Fill_nodup {cityPois : List Poi} {city : String} {sel : List Poi}
    {rot : RotMap} (hcp : (cityPois.map Poi.id).Nodup)
    (hsel : (sel.map Poi.id).Nodup) :
    (((phase3Fill cityPois city sel rot).1).map Poi.id).Nodup := by
  rw [phase3Fill]
  split
  · dsimp only []
    split
    · set remaining := cityPois.filter (fun poi =>
        !(sel.any (fun s => s.id == poi.id))) with hrem
      set len := remaining.length with hlen
      set start := rotGet rot city % len with hstart
      set k := min (numActivitiesDesired - sel.length) len with hk
      have hlenpos : 0 < len := by assumption
      have hkle : k ≤ len := min_le_right _ _
      have hremids : (remaining.map Poi.id).Nodup := nodup_ids_filter hcp _
      have hidx : ∀ i, i < k → (start + i) % len < len :=
        fun i _ => Nat.mod_lt _ hlenpos
      rw [List.map_append]
      refine hsel.append ?_ ?_
      · rw [List.map_map]
        refine List.Nodup.map_on ?_ (List.nodup_range k)
        intro i hi j hj hgij
        rw [List.mem_range] at hi hj
        have hi' := hidx i hi
        have hj' := hidx j hj
        simp only [Function.comp] at hgij
        exact mod_window_inj hkle hi hj (nodup_ids_getD_inj hremids hi' hj' hgij)
      · intro a ha hapick
        obtain ⟨p, hp, hpid⟩ := List.mem_map.mp hapick
        obtain ⟨i, hi, hgi⟩ := List.mem_map.mp hp
        rw [List.mem_range] at hi
        have hi' := hidx i hi
        have hpmem : p ∈ remaining := by
          rw [← hgi, List.getD_eq_getElem remaining defPoi hi']
          exact List.getElem_mem hi'
        have hcond := (List.mem_filter.mp hpmem).2
        have hany : (sel.any (fun s => s.id == p.id)) = false := by
          cases hx : sel.any (fun s => s.id == p.id) with
          | false => rfl
          | true => rw [hx] at hcond; exact Bool.noConfusion hcond
        have := id_not_mem_of_any_false hany
        rw [hpid] at this
        exact this ha
    · exact hsel
  · exact hsel

theorem dayStep_tripDays (t : TransportData) (p : PoiData) (req : TripRequest)
    (d : ℕ) (st : DayState) :
    ∃ td : TripDay, (dayStep t p req d st).tripDays = st.tripDays ++ [td] ∧
      td.day = d ∧ td.date = req.departureDate + ((d - 1 : ℕ) : ℤ) :=
  ⟨_, rfl, rfl, rfl⟩

/-- The relocation targets of a trip: the `transport.to` entries in order. -/
def relocTargets (days : List TripDay) : List String :=
  days.filterMap (fun td => td.transport.map (fun leg => leg.toCity))

theorem relocTargets_append (l₁ l₂ : List TripDay) :
    relocTargets (l₁ ++ l₂) = relocTargets l₁ ++ relocTargets l₂ :=
  List.filterMap_append l₁ l₂ _

theorem dayStep_targets (t : TransportData) (p : PoiData) (req : TripRequest)
    (d : ℕ) (st : DayState) :
    ∃ td : TripDay, (dayStep t p req d st).tripDays = st.tripDays ++ [td] ∧
      ((td.transport = none ∧ (dayStep t p req d st).visitedCities = st.visitedCities) ∨
       (∃ c : Candidate, dayReloc t p req d st = some c ∧
          td.transport = some ⟨st.currentCity, c.city, c.transport⟩ ∧
          (dayStep t p req d st).visitedCities = st.visitedCities ++ [c.city])) := by
  cases hrel : dayReloc t p req d st with
  | none =>
    refine ⟨_, rfl, Or.inl ⟨?_, ?_⟩⟩
    · show Option.map _ (match dayReloc t p req d st with
        | some best => some best.transport
        | none => none) = none
      rw [hrel]
      rfl
    · show (match dayReloc t p req d st with
        | some best => st.visitedCities ++ [best.city]
        | none => st.visitedCities) = st.visitedCities
      rw [hrel]
  | some c =>
    refine ⟨_, rfl, Or.inr ⟨c, rfl, ?_, ?_⟩⟩
    · show Option.map _ (match dayReloc t p req d st with
        | some best => some best.transport
        | none => none) = some ⟨st.currentCity, c.city, c.transport⟩
      rw [hrel]
      rfl
    · show (match dayReloc t p req d st with
        | some best => st.visitedCities ++ [best.city]
        | none => st.visitedCities) = st.visitedCities ++ [c.city]
      rw [hrel]

theorem dayReloc_fresh {t : TransportData} {p : PoiData} {req : TripRequest}
    {d : ℕ} {st : DayState} {c : Candidate}
    (h : dayReloc t p req d st = some c) : c.city ∉ st.visitedCities := by
  rw [dayReloc] at h
  split at h
  · dsimp only [] at h
    split at h
    · obtain ⟨r, _, _, hvis, hcity, _, _⟩ := mem_findCandidateCities (scoreCities_mem h)
      rw [hcity]
      intro hmem
      have : st.visitedCities.contains (lowerStr r.toCity) = true := by
        exact List.elem_eq_true_of_mem hmem
      rw [hvis] at this
      exact Bool.noConfusion this
    · exact Option.noConfusion h
  · exact Option.noConfusion h

/-- The whole day loop, as iterated in `generateRecommendation`. -/
def foldDays (t : TransportData) (p : PoiData) (req : TripRequest)
    (rng : Rng) (rot0 : RotMap) (n : ℕ) : DayState :=
  (List.range n).foldl (fun st i => dayStep t p req (i + 1) st) (initState req rng rot0)

theorem foldDays_succ (t : TransportData) (p : PoiData) (req : TripRequest)
    (rng : Rng) (rot0 : RotMap) (n : ℕ) :
    foldDays t p req rng rot0 (n + 1) =
      dayStep t p req (n + 1) (foldDays t p req rng rot0 n) := by
  rw [foldDays, List.range_succ, List.foldl_append]
  rfl

theorem foldDays_tripDays (t : TransportData) (p : PoiData) (req : TripRequest)
    (rng : Rng) (rot0 : RotMap) : ∀ n : ℕ,
    ((foldDays t p req rng rot0 n).tripDays).length = n ∧
    ∀ i (hi : i < ((foldDays t p req rng rot0 n).tripDays).length),
      ((foldDays t p req rng rot0 n).tripDays.get ⟨i, hi⟩).day = i + 1 ∧
      ((foldDays t p req rng rot0 n).tripDays.get ⟨i, hi⟩).date =
        req.departureDate + (i : ℤ)
  | 0 => ⟨rfl, fun i hi => absurd hi (by simp [foldDays, initState])⟩
  | n + 1 => by
    obtain ⟨ihlen, ihget⟩ := foldDays_tripDays t p req rng rot0 n
    obtain ⟨td, htd, hday, hdate⟩ :=
      dayStep_tripDays t p req (n + 1) (foldDays t p req rng rot0 n)
    rw [foldDays_succ, htd]
    constructor
    · simp [ihlen]
    · intro i hi
      rw [List.length_append, ihlen] at hi
      simp only [List.length_cons, List.length_nil] at hi
      by_cases hlt : i < n
      · have hi' : i < ((foldDays t p req rng rot0 n).tripDays).length := by
          rw [ihlen]; exact hlt
        have hgeti : ((foldDays t p req rng rot0 n).tripDays ++ [td]).get
            ⟨i, by simpa [ihlen] using hi⟩ =
            ((foldDays t p req rng rot0 n).tripDays).get ⟨i, hi'⟩ := by
          rw [List.get_append]
        rw [hgeti]
        exact ihget i hi'
      · have hin : i = n := by omega
        have hle : ((foldDays t p req rng rot0 n).tripDays).length ≤ i := by
          rw [ihlen]
          omega
        have hgeti : ((foldDays t p req rng rot0 n).tripDays ++ [td]).get
            ⟨i, by simpa [ihlen] using hi⟩ = td := by
          rw [List.get_eq_getElem, List.getElem_append_right hle]
          simp [ihlen, hin]
        rw [hgeti, hday, hdate]
        exact ⟨by omega, by simp [hin]⟩

theorem foldDays_no_revisit (t : TransportData) (p : PoiData) (req : TripRequest)
    (rng : Rng) (rot0 : RotMap) : ∀ n : ℕ,
    (relocTargets (foldDays t p req rng rot0 n).tripDays).Nodup ∧
    (∀ x ∈ relocTargets (foldDays t p req rng rot0 n).tripDays,
      x ∈ (foldDays t p req rng rot0 n).visitedCities) ∧
    lowerStr req.origin ∈ (foldDays t p req rng rot0 n).visitedCities ∧
    lowerStr req.origin ∉ relocTargets (foldDays t p req rng rot0 n).tripDays
  | 0 => by
    refine ⟨List.nodup_nil, ?_, ?_, ?_⟩ <;> simp [foldDays, initState, relocTargets]
  | n + 1 => by
    obtain ⟨ihnd, ihsub, ihorig, ihnor⟩ := foldDays_no_revisit t p req rng rot0 n
    obtain ⟨td, htd, hcase⟩ := dayStep_targets t p req (n + 1) (foldDays t p req rng rot0 n)
    rw [foldDays_succ, htd]
    rcases hcase with ⟨htr, hvis⟩ | ⟨c, hrel, htr, hvis⟩
    · rw [hvis, relocTargets_append]
      have hone : relocTargets [td] = [] := by simp [relocTargets, htr]
      rw [hone, List.append_nil]
      exact ⟨ihnd, ihsub, ihorig, ihnor⟩
    · rw [hvis, relocTargets_append]
      have hone : relocTargets [td] = [c.city] := by simp [relocTargets, htr]
      rw [hone]
      have hfresh : c.city ∉ (foldDays t p req rng rot0 n).visitedCities :=
        dayReloc_fresh hrel
      have hnotin : c.city ∉ relocTargets (foldDays t p req rng rot0 n).tripDays :=
        fun hmem => hfresh (ihsub _ hmem)
      refine ⟨?_, ?_, ?_, ?_⟩
      · refine ihnd.append (List.nodup_singleton _) ?_
        intro a ha hb
        rw [List.mem_singleton] at hb
        subst hb
        exact hnotin ha
      · intro x hx
        rcases List.mem_append.mp hx with hx' | hx'
        · exact List.mem_append_left _ (ihsub x hx')
        · rw [List.mem_singleton] at hx'
          subst hx'
          exact List.mem_append_right _ (List.mem_singleton.mpr rfl)
      · exact List.mem_append_left _ ihorig
      · intro hmem
        rcases List.mem_append.mp hmem with hx' | hx'
        · exact ihnor hx'
        · rw [List.mem_singleton] at hx'
          rw [← hx'] at hfresh
          exact hfresh ihorig

/-! ### Concrete catalogs used by counterexamples, bug evidence and
witnesses.  The Batteries rational operations are `@[irreducible]`; they are
made semireducible here so that `decide` can evaluate concrete runs. -/

attribute [local semireducible] Rat.add Rat.mul Rat.sub Rat.inv Rat.ofScientific

/-- Catalog for the flexible-transport scenario: flight-only routes
Paris→Rome and Rome→Berlin. -/
def flexCatalog : TransportData :=
  [⟨"Paris", "Rome", [⟨"flight", 1, 10⟩]⟩, ⟨"Rome", "Berlin", [⟨"flight", 1, 10⟩]⟩]

/-- A 6-day train-only request out of Paris. -/
def flexReq : TripRequest := ⟨"Paris", 6, 1000, ["train"], ["museums"], 0⟩

/-- Six nightlife POIs in Paris. -/
def overBudgetPois : PoiData := [("paris",
  [⟨"n1", "N1", "nightlife", 10, 0⟩, ⟨"n2", "N2", "nightlife", 9, 0⟩,
   ⟨"n3", "N3", "nightlife", 8, 0⟩, ⟨"n4", "N4", "nightlife", 7, 0⟩,
   ⟨"n5", "N5", "nightlife", 6, 0⟩, ⟨"n6", "N6", "nightlife", 5, 0⟩])]

/-- A 2-day request whose activity costs exceed the 100 budget. -/
def overBudgetReq : TripRequest := ⟨"Paris", 2, 100, ["train"], ["night"], 0⟩

/-- POI catalog for the City Scorer counterexample: city `acity` has a POI
of category `museums`, city `bcity` one of category `mus`. -/
def scorerPois : PoiData :=
  [("acity", [⟨"p1", "P1", "museums", 100, 0⟩]),
   ("bcity", [⟨"p2", "P2", "mus", 60, 0⟩])]

def candA7 : Candidate := ⟨"acity", ⟨"train", 1, 10⟩⟩

def candB7 : Candidate := ⟨"bcity", ⟨"train", 1, 10⟩⟩

/-- POIs for the popularity-phase counterexample: two `museums` POIs match
the interest; the two `food` POIs are left for the popularity phase, with
`a` strictly more popular than `b`. -/
def shufflePois : PoiData := [("paris",
  [⟨"i1", "I1", "museums", 9, 0⟩, ⟨"i2", "I2", "museums", 8, 0⟩,
   ⟨"a", "A", "food", 10, 0⟩, ⟨"b", "B", "food", 5, 0⟩])]

def poiA8 : Poi := ⟨"a", "A", "food", 10, 0⟩

def poiB8 : Poi := ⟨"b", "B", "food", 5, 0⟩

/-- The activity selection of `shufflePois` day 1 with an all-zero random
stream. -/
def shuffleSel : List CostedPoi :=
  (selectActivitiesForCity shufflePois "paris" ["museums"] 1000 [] 1 []
    (List.replicate 10 0)).1

/-- Route catalog for the candidate-router witness. -/
def routerCatalog : TransportData :=
  [⟨"Paris", "Rome", [⟨"train", 2, 30⟩, ⟨"train", 1, 50⟩]⟩]

/-- A 2-day valid request used by witnesses. -/
def witnessReq : TripRequest := ⟨"Paris", 2, 100, ["train"], ["museums"], 0⟩

/-- Two-POI catalog with distinct ids for the activity-selector witness. -/
def witnessPois : PoiData :=
  [("paris", [⟨"x1", "X1", "museums", 3, 0⟩, ⟨"x2", "X2", "food", 2, 0⟩])]

/-! ### The claims -/

/-- C1: for every well-formed request, `generateRecommendation` returns
exactly `durationDays` trip days, the `i`-th entry has `day = i + 1`, and
the dates advance by exactly one calendar day from `departureDate`; the day
loop never exits early on budget exhaustion (no budget hypothesis is
needed). -/
theorem generateRecommendation_tripDays_spec (t : TransportData) (p : PoiData)
    (rot0 : RotMap) (req : TripRequest) (rng : Rng)
    (h1 : 1 ≤ req.durationDays) (h2 : req.durationDays ≤ 30)
    (h3 : 100 ≤ req.maxBudget) (h4 : req.transportPreference ≠ [])
    (h5 : req.interests ≠ []) :
    ((generateRecommendation t p rot0 req rng).tripDays).length = req.durationDays ∧
    ∀ i (hi : i < ((generateRecommendation t p rot0 req rng).tripDays).length),
      (((generateRecommendation t p rot0 req rng).tripDays).get ⟨i, hi⟩).day = i + 1 ∧
      (((generateRecommendation t p rot0 req rng).tripDays).get ⟨i, hi⟩).date =
        req.departureDate + (i : ℤ) :=
  foldDays_tripDays t p req rng rot0 req.durationDays

theorem generateRecommendation_tripDays_spec_witness :
    (1 ≤ witnessReq.durationDays ∧ witnessReq.durationDays ≤ 30 ∧
      100 ≤ witnessReq.maxBudget ∧ witnessReq.transportPreference ≠ [] ∧
      witnessReq.interests ≠ []) ∧
    (((generateRecommendation [] [] [] witnessReq []).tripDays).length =
        witnessReq.durationDays ∧
      ∀ i (hi : i < ((generateRecommendation [] [] [] witnessReq []).tripDays).length),
        (((generateRecommendation [] [] [] witnessReq []).tripDays).get ⟨i, hi⟩).day =
          i + 1 ∧
        (((generateRecommendation [] [] [] witnessReq []).tripDays).get ⟨i, hi⟩).date =
          witnessReq.departureDate + (i : ℤ)) :=
  ⟨⟨by decide, by decide, by decide, by decide, by decide⟩,
    generateRecommendation_tripDays_spec [] [] [] witnessReq []
      (by decide) (by decide) (by decide) (by decide) (by decide)⟩

/-- C2: `findCandidateCities` yields exactly one entry per route whose
origin matches the current city case-insensitively, whose destination is
unvisited and which has at least one option of an allowed mode costing at
most `0.3 × remainingBudget`; each entry's transport is such an option and
minimises `cost + durationHrs * 10` among the surviving options, so no
returned option costs more than `0.3 × remainingBudget`. -/
theorem findCandidateCities_spec (t : TransportData) (currentCity : String)
    (visited modes : List String) (B : ℚ) :
    (findCandidateCities t currentCity visited modes B).length =
      (t.filter (routeQualifies currentCity visited modes B)).length ∧
    ∀ c ∈ findCandidateCities t currentCity visited modes B,
      c.transport.cost ≤ B * (3/10) ∧ modes.contains c.transport.mode = true ∧
      ∃ r ∈ t, lowerStr r.fromCity = currentCity ∧
        visited.contains (lowerStr r.toCity) = false ∧ c.city = lowerStr r.toCity ∧
        c.transport ∈ r.options ∧
        ∀ o ∈ r.options, modes.contains o.mode = true → o.cost ≤ B * (3/10) →
          optionScore c.transport ≤ optionScore o := by
  refine ⟨findCandidateCities_length t currentCity visited modes B, ?_⟩
  intro c hc
  obtain ⟨r, hrt, hfrom, hvis, hcity, hvalid, hmin⟩ := mem_findCandidateCities hc
  obtain ⟨hopt, hcond⟩ := List.mem_filter.mp hvalid
  have hcond' := hcond
  simp only [Bool.and_eq_true, decide_eq_true_eq] at hcond'
  refine ⟨hcond'.2, hcond'.1, r, hrt, hfrom, hvis, hcity, hopt, ?_⟩
  intro o ho hom hoc
  refine hmin o (List.mem_filter.mpr ⟨ho, ?_⟩)
  rw [hom, decide_eq_true hoc]
  rfl

theorem findCandidateCities_spec_witness :
    (⟨"rome", ⟨"train", 2, 30⟩⟩ : Candidate) ∈
        findCandidateCities routerCatalog "paris" ["paris"] ["train"] 1000 ∧
    (⟨"train", 2, 30⟩ : TransportOption).cost ≤ 1000 * (3/10) ∧
    (["train"] : List String).contains "train" = true :=
  have h := (findCandidateCities_spec routerCatalog "paris" ["paris"] ["train"] 1000).2
    ⟨"rome", ⟨"train", 2, 30⟩⟩ (by decide)
  ⟨by decide, h.1, h.2.1⟩

/-- C3 (bug evidence): in the 6-day flight-catalog run the flexible-mode
widening fires on day 3 and relocation to Rome succeeds, but
`flexibleTransportActivated` is never cleared — the clearing branch
(lines 85-88) compares `nextCity` with `currentCity` immediately after
`nextCity = currentCity`, so it is unreachable — hence the second stuck
episode (days 4-5 in Rome) does not widen the filter again on day 6, and the
trip stays in Rome although a widened filter would have relocated to Berlin
(the Rome→Berlin flight qualifies).  The final fold state still has the flag
set. -/
theorem flexibleTransport_one_shot_never_resets :
    ((generateRecommendation flexCatalog [] [] flexReq []).tripDays.map
        (fun d => d.city)) =
      ["paris", "paris", "rome", "rome", "rome", "rome"] ∧
    (foldDays flexCatalog [] flexReq [] [] 6).flexibleTransportActivated = true ∧
    (findCandidateCities flexCatalog "rome" ["paris", "rome"]
        ["flight", "train", "bus", "car"] 990).length = 1 := by
  decide

/-- C4: `totalCost` always equals `maxBudget - remainingBudget`, and a run
whose activity costs exhaust the budget still returns a full response with a
negative `remainingBudget`. -/
theorem totalCost_eq_budget_difference :
    (∀ (t : TransportData) (p : PoiData) (rot0 : RotMap) (req : TripRequest) (rng : Rng),
      (generateRecommendation t p rot0 req rng).totalCost =
        req.maxBudget - (generateRecommendation t p rot0 req rng).remainingBudget) ∧
    (generateRecommendation [] overBudgetPois [] overBudgetReq []).remainingBudget < 0 ∧
    ((generateRecommendation [] overBudgetPois [] overBudgetReq []).tripDays).length =
      overBudgetReq.durationDays :=
  ⟨fun _ _ _ _ _ => rfl, by decide, by decide⟩

/-- C5: over any generated trip, no city appears as a `transport.to` target
twice, and the origin never appears as a target. -/
theorem generateRecommendation_no_transport_revisit (t : TransportData) (p : PoiData)
    (rot0 : RotMap) (req : TripRequest) (rng : Rng) :
    (relocTargets (generateRecommendation t p rot0 req rng).tripDays).Nodup ∧
    lowerStr req.origin ∉ relocTargets (generateRecommendation t p rot0 req rng).tripDays :=
  have h := foldDays_no_revisit t p req rng rot0 req.durationDays
  ⟨h.1, h.2.2.2⟩

/-- C6: if the city's POI ids are pairwise distinct, one call to
`selectActivitiesForCity` returns at most 3 activities with pairwise
distinct POI ids, whichever fallback phases contributed them. -/
theorem selectActivitiesForCity_nodup (p : PoiData) (city : String)
    (interests : List String) (budget : ℚ) (visited : List String) (day : ℕ)
    (rot : RotMap) (rng : Rng)
    (h : ((poisFor p city).map Poi.id).Nodup) :
    ((selectActivitiesForCity p city interests budget visited day rot rng).1).length ≤ 3 ∧
    (((selectActivitiesForCity p city interests budget visited day rot rng).1).map
      (fun a => a.poi.id)).Nodup := by
  have hsel1ids : ((((interestPois (poisFor p city) interests visited).take
      numActivitiesDesired)).map Poi.id).Nodup :=
    nodup_ids_take _ (nodup_ids_of_perm (List.perm_insertionSort popDesc _)
      (nodup_ids_filter h _))
  have h2 := @phase2Fill_nodup (poisFor p city) visited
    ((interestPois (poisFor p city) interests visited).take numActivitiesDesired)
    rng h hsel1ids
  have h3 := @phase3Fill_nodup (poisFor p city) city
    ((phase2Fill (poisFor p city) visited
      ((interestPois (poisFor p city) interests visited).take numActivitiesDesired)
      rng).1) rot h h2
  have h4 := nodup_ids_of_perm (fyShuffle_perm _
    ((phase2Fill (poisFor p city) visited
      ((interestPois (poisFor p city) interests visited).take numActivitiesDesired)
      rng).2)) h3
  have h5 := nodup_ids_take numActivitiesDesired h4
  simp only [selectActivitiesForCity]
  constructor
  · rw [decorateCosts_length]
    exact List.length_take_le _ _
  · have hmap : ∀ (l : List Poi) (r : Rng),
        ((decorateCosts l r).1).map (fun a => a.poi.id) = l.map Poi.id := by
      intro l r
      have hcon := congrArg (List.map Poi.id) (decorateCosts_map_poi l r)
      rw [List.map_map] at hcon
      exact hcon
    rw [hmap]
    exact h5

theorem selectActivitiesForCity_nodup_witness :
    (((poisFor witnessPois "paris").map Poi.id).Nodup) ∧
    (((selectActivitiesForCity witnessPois "paris" ["museums"] 100 [] 1 [] []).1).length ≤ 3 ∧
      (((selectActivitiesForCity witnessPois "paris" ["museums"] 100 [] 1 [] []).1).map
        (fun a => a.poi.id)).Nodup) :=
  ⟨by decide,
    selectActivitiesForCity_nodup witnessPois "paris" ["museums"] 100 [] 1 [] [] (by decide)⟩

/-- Modelled from the spec (§4.3): the City Scorer's per-candidate score as
the spec words it — `popularityScore` (default 1) summed over the city's
POIs whose category matches any requested interest by case-insensitive
substring match, plus the exploration bonus 50.  Used only to exhibit that
the code's scoring differs. -/
def cityScoreSpecSubstring (poisData : PoiData) (interests : List String)
    (c : Candidate) : ℚ :=
  ((poisFor poisData c.city).foldl (fun s poi =>
    if interests.any (fun i => strIncludes (lowerStr poi.category) (lowerStr i)) then
      s + jsOr poi.popularityScore 1
    else s) 0) + 50

/-- C7 (counterexample): with interest `"mus"`, the substring scoring of the
claim makes `candA7` (category `museums`, popularity 100, score 150) the
unique highest-scoring candidate, but `scoreCities` — which tests
`interests.includes(poi.category.toLowerCase())`, an exact membership
test — returns `candB7` (category `mus`, score 110). -/
theorem scoreCities_substring_counterexample :
    scoreCities scorerPois [candA7, candB7] ["mus"] = some candB7 ∧
    cityScoreSpecSubstring scorerPois ["mus"] candA7 = 150 ∧
    cityScoreSpecSubstring scorerPois ["mus"] candB7 = 110 ∧
    candB7 ≠ candA7 := by
  decide

/-- C7 (amended): `scoreCities` returns `none` iff the candidate list is
empty; otherwise it returns the first candidate attaining the strictly
highest score, where a candidate's score sums `popularityScore || 1` over
the POIs of its city whose lower-cased category is *exactly equal* to one of
the interest strings (`interests.includes`, case-sensitive on the interest
side — not a substring match), plus the fixed exploration bonus 50. -/
theorem scoreCities_first_argmax (p : PoiData) (cands : List Candidate)
    (ints : List String) :
    (scoreCities p cands ints = none ↔ cands = []) ∧
    ∀ c, scoreCities p cands ints = some c →
      ∃ l₁ l₂, cands = l₁ ++ c :: l₂ ∧
        (∀ d ∈ l₁, cityScore p ints d < cityScore p ints c) ∧
        (∀ d ∈ cands, cityScore p ints d ≤ cityScore p ints c) := by
  constructor
  · constructor
    · intro h
      cases cands with
      | nil => rfl
      | cons x xs =>
        rw [scoreCities_eq_fold, List.foldl_cons,
          show scoreStep p ints none x = some (cityScore p ints x, x) from rfl] at h
        obtain ⟨c', hfold, _⟩ := scoreFold_spec p ints xs x
        rw [hfold] at h
        exact Option.noConfusion h
    · intro h
      subst h
      rfl
  · intro c hc
    cases cands with
    | nil => exact Option.noConfusion hc
    | cons x xs =>
      rw [scoreCities_eq_fold, List.foldl_cons,
        show scoreStep p ints none x = some (cityScore p ints x, x) from rfl] at hc
      obtain ⟨c', hfold, hdisj⟩ := scoreFold_spec p ints xs x
      rw [hfold] at hc
      have hcc : c' = c := by simpa using hc
      subst hcc
      rcases hdisj with ⟨rfl, hle⟩ | ⟨l₁, l₂, hsplit, hxc, hl₁, hle⟩
      · refine ⟨[], xs, rfl, by simp, ?_⟩
        intro d hd
        rcases List.mem_cons.mp hd with rfl | hd'
        · exact le_refl _
        · exact hle d hd'
      · refine ⟨x :: l₁, l₂, by rw [hsplit, List.cons_append], ?_, ?_⟩
        · intro d hd
          rcases List.mem_cons.mp hd with rfl | hd'
          · exact hxc
          · exact hl₁ d hd'
        · intro d hd
          rcases List.mem_cons.mp hd with rfl | hd'
          · exact le_of_lt hxc
          · exact hle d hd'

theorem scoreCities_first_argmax_witness :
    scoreCities scorerPois [candA7, candB7] ["museums"] = some candA7 ∧
    (∃ l₁ l₂, ([candA7, candB7] : List Candidate) = l₁ ++ candA7 :: l₂ ∧
      (∀ d ∈ l₁, cityScore scorerPois ["museums"] d <
        cityScore scorerPois ["museums"] candA7) ∧
      (∀ d ∈ ([candA7, candB7] : List Candidate),
        cityScore scorerPois ["museums"] d ≤ cityScore scorerPois ["museums"] candA7)) :=
  ⟨by decide,
    (scoreCities_first_argmax scorerPois [candA7, candB7] ["museums"]).2 candA7 (by decide)⟩

/-- C8 (counterexample): in the `shufflePois` run with an all-zero random
stream, the interest phase fills 2 of 3 slots; the popularity phase's pool
is `[a (popularity 10), b (popularity 5)]`, but the pool is shuffled after
sorting, and the single remaining slot receives `b` while the strictly more
popular unvisited `a` is left out — refuting "the highest-popularity ones
are chosen". -/
theorem popularity_phase_shuffle_counterexample :
    (shuffleSel.map (fun a => a.poi.id)).contains "b" = true ∧
    (shuffleSel.map (fun a => a.poi.id)).contains "a" = false ∧
    poiA8 ∈ phase2Pool (poisFor shufflePois "paris") []
      ((interestPois (poisFor shufflePois "paris") ["museums"] []).take
        numActivitiesDesired) ∧
    jsOr poiB8.popularityScore 0 < jsOr poiA8.popularityScore 0 := by
  decide

/-- C8 (amended): whenever the interest phase fills fewer than 3 slots, the
popularity phase appends exactly `min (3 - filled) poolSize` POIs drawn from
the not-yet-selected, not-visited POIs of the city; the pool is sorted by
popularity descending but then randomly shuffled before the slots are taken,
so the appended POIs all come from that pool but need not be the most
popular ones. -/
theorem phase2Fill_takes_from_pool (cityPois : List Poi) (visited : List String)
    (sel : List Poi) (rng : Rng) (h : sel.length < numActivitiesDesired) :
    ∃ picked, (phase2Fill cityPois visited sel rng).1 = sel ++ picked ∧
      picked.length = min (numActivitiesDesired - sel.length)
        (phase2Pool cityPois visited sel).length ∧
      ∀ poi ∈ picked, poi ∈ phase2Pool cityPois visited sel := by
  rw [phase2Fill, if_pos h]
  refine ⟨_, rfl, ?_, ?_⟩
  · rw [List.length_take]
    congr 1
    exact ((fyShuffle_perm _ _).trans (List.perm_insertionSort popDesc _)).length_eq
  · intro poi hpoi
    exact ((fyShuffle_perm _ _).trans (List.perm_insertionSort popDesc _)).mem_iff.mp
      (List.mem_of_mem_take hpoi)

theorem phase2Fill_takes_from_pool_witness :
    ([poiA8].length < numActivitiesDesired) ∧
    (∃ picked, (phase2Fill [poiA8, poiB8] [] [poiA8] []).1 = [poiA8] ++ picked ∧
      picked.length = min (numActivitiesDesired - [poiA8].length)
        (phase2Pool [poiA8, poiB8] [] [poiA8]).length ∧
      ∀ poi ∈ picked, poi ∈ phase2Pool [poiA8, poiB8] [] [poiA8]) :=
  ⟨by decide, phase2Fill_takes_from_pool [poiA8, poiB8] [] [poiA8] [] (by decide)⟩

/-- C9 (bug evidence): the base-cost table lists `shopping: 0` and
`nature: 0`, but the lookup `baseCosts[baseCategory] || 15` treats the
stored `0` as falsy, so both categories are costed from base 15: with a
zero random draw the result is `15 - 5 = 10`, outside the claimed range
`[-5, 4]` for a base of 0 (`floor(0 + 0·10 - 5) = -5` would be the claimed
value). -/
theorem estimateActivityCost_zero_base_overridden :
    estimateActivityCost "shopping" 0 = 10 ∧
    estimateActivityCost "nature" 0 = 10 ∧
    ¬ (estimateActivityCost "shopping" 0 ≤ 4) ∧
    estimateActivityCost "museums" 0 = 10 ∧
    estimateActivityCost "unknownCategory" (1/2) = 15 := by
  decide

/-- C10: the response is a function of the catalog, the request and the
random stream only: the engine resets `this.poiRotationIndex` to the empty
map at the start of every call (line 58), and all other run-state
(`visitedCities`, `visitedPois`, `consecutiveDaysInSameCity`,
`flexibleTransportActivated`) is local to the call, so the residual rotation
state left by earlier calls on the same instance cannot influence the
result. -/
theorem generateRecommendation_independent_of_prior_calls (t : TransportData)
    (p : PoiData) (req : TripRequest) (rng : Rng) (rot1 rot2 : RotMap) :
    generateRecommendation t p rot1 req rng = generateRecommendation t p rot2 req rng :=
  rfl

end TripRec
